import Mathlib

/-!
Shallow embedding of the AD5328 DAC driver (`src/lib.rs`).

The driver translates typed configuration values and channel values into
16-bit command words and transmits each word as a framed two-byte big-endian
SPI transaction: enable pin low, two-byte bus write, enable pin high.

The SPI bus and the enable pin are external `embedded-hal` collaborators.
Following the spec's own test methodology ("a mock bus/pin pair records the
sequence ..."), they are modelled as a scripted recording mock: a `World`
holds a script of outcomes for the pin and bus calls (an empty script means
every call succeeds), an append-only trace of the calls performed, and the
current level of the enable line.  The driver functions are translated
line by line from the Rust source and thread this world explicitly, exactly
as `&mut self` threads the two resources in Rust.
-/

/-- All available DAC channels (A..H), `Channel` in the source.  These are
configurable in two groups: A...D and E...H. -/
inductive Channel where
  | A
  | B
  | C
  | D
  | E
  | F
  | G
  | H
  deriving DecidableEq, Repr

/-- Discriminant of `Channel` (`chan as u8` in `From<Channel> for u8`). -/
def Channel.toU8 : Channel → Nat
  | .A => 0
  | .B => 1
  | .C => 2
  | .D => 3
  | .E => 4
  | .F => 5
  | .G => 6
  | .H => 7

/-- `Channel::as_u16`: `(*self as u16) << 12`. -/
def Channel.as_u16 (c : Channel) : Nat :=
  c.toU8 <<< 12

/-- Driver error taxonomy, `Error<S, P>` in the source. -/
inductive Error (S P : Type) where
  /-- SPI bus error -/
  | Spi (err : S)
  /-- Pin error -/
  | Pin (err : P)
  /-- Connection error (device not found) -/
  | Conn
  /-- Address error (invalid or out of bounds) -/
  | Address
  /-- Port error (invalid or out of bounds) -/
  | Port
  /-- Out of bounds error -/
  | Oob
  deriving DecidableEq, Repr

/-- Gain setting, `GAIN` in the source. -/
inductive GAIN where
  /-- Output range of 0V to Vref -/
  | Gain0Vref
  /-- Output range of 0V to 2*Vref -/
  | Gain02Vref
  deriving DecidableEq, Repr

/-- Discriminant of `GAIN` (`*self as u16`). -/
def GAIN.toU16 : GAIN → Nat
  | .Gain0Vref => 0
  | .Gain02Vref => 1

/-- `GAIN::as_u16`: `(*self as u16) << 4`. -/
def GAIN.as_u16 (g : GAIN) : Nat :=
  g.toU16 <<< 4

/-- Reference buffering setting, `BUF` in the source. -/
inductive BUF where
  /-- Unbuffered reference -/
  | Unbuffered
  /-- Buffered reference -/
  | Buffered
  deriving DecidableEq, Repr

/-- Discriminant of `BUF` (`*self as u16`). -/
def BUF.toU16 : BUF → Nat
  | .Unbuffered => 0
  | .Buffered => 1

/-- `BUF::as_u16`: `(*self as u16) << 2`. -/
def BUF.as_u16 (b : BUF) : Nat :=
  b.toU16 <<< 2

/-- Reference source setting, `VDD` in the source. -/
inductive VDD where
  /-- Use external voltage reference -/
  | ExternalRef
  /-- Use VDD as voltage reference -/
  | VddAsRef
  deriving DecidableEq, Repr

/-- Discriminant of `VDD` (`*self as u16`). -/
def VDD.toU16 : VDD → Nat
  | .ExternalRef => 0
  | .VddAsRef => 1

/-- `VDD::as_u16`: `*self as u16`. -/
def VDD.as_u16 (v : VDD) : Nat :=
  v.toU16

/-- Output-latch mode, `LDAC` in the source. -/
inductive LDAC where
  /-- Sets LDAC permanently low, allowing the DAC registers to be updated continuously -/
  | LdacLow
  /-- Sets LDAC permanently high; the DAC registers are latched (default) -/
  | LdacHigh
  /-- Causes a single pulse on LDAC, updating the DAC registers once -/
  | LdacSingleUpdate
  deriving DecidableEq, Repr

/-- Discriminant of `LDAC` (`*self as u16`). -/
def LDAC.toU16 : LDAC → Nat
  | .LdacLow => 0
  | .LdacHigh => 1
  | .LdacSingleUpdate => 2

/-- `LDAC::as_u16`: `0xa000 | (*self as u16)`. -/
def LDAC.as_u16 (l : LDAC) : Nat :=
  0xa000 ||| l.toU16

/-- Configuration aggregate, `Ad5328Config` in the source: GAIN, BUF and VDD
bits (for channel groups A...D and E...H respectively) and LDAC behavior. -/
structure Ad5328Config where
  gain : GAIN × GAIN
  buf : BUF × BUF
  vdd : VDD × VDD
  ldac : LDAC
  deriving DecidableEq, Repr

/-- `impl Default for Ad5328Config`. -/
def Ad5328Config.default : Ad5328Config :=
  { gain := (GAIN.Gain0Vref, GAIN.Gain0Vref)
    buf := (BUF.Buffered, BUF.Buffered)
    vdd := (VDD.ExternalRef, VDD.ExternalRef)
    ldac := LDAC.LdacHigh }

/-- `Ad5328Config::as_commands`: serialize the config as two commands.
Rust `|` binds looser than `<<`, so each `x.as_u16() << 1` shifts first. -/
def Ad5328Config.as_commands (c : Ad5328Config) : List Nat :=
  [0x8000
      ||| c.gain.1.as_u16
      ||| c.gain.2.as_u16 <<< 1
      ||| c.buf.1.as_u16
      ||| c.buf.2.as_u16 <<< 1
      ||| c.vdd.1.as_u16
      ||| c.vdd.2.as_u16 <<< 1,
    c.ldac.as_u16]

/-- One call performed on the mock bus/pin pair, with the outcome the mock
returned for it (`none` = success). -/
inductive Call (S P : Type) where
  /-- `enable.set_low()` was called and returned `r` -/
  | setLow (r : Option P)
  /-- `enable.set_high()` was called and returned `r` -/
  | setHigh (r : Option P)
  /-- `spi.write(bytes)` was called and returned `r` -/
  | spiWrite (bytes : List Nat) (r : Option S)
  deriving DecidableEq, Repr

/-- The pair of external resources owned by the handle (`spi: SPI` plus
`enable: EN` in the source), modelled as the spec's recording mock bus/pin
pair: scripted outcomes for the successive pin and bus calls (an exhausted
script means the call succeeds), the trace of calls performed so far, and
the current level of the enable line (`true` = high). -/
structure World (S P : Type) where
  pinScript : List (Option P)
  spiScript : List (Option S)
  trace : List (Call S P)
  line : Bool
  deriving DecidableEq, Repr

/-- Mock `OutputPin::set_low`: consume the next scripted pin outcome, record
the call, and drive the line low on success. -/
def World.setLow {S P : Type} (w : World S P) : Option P × World S P :=
  let r := w.pinScript.headD none
  (r, { w with
          pinScript := w.pinScript.tail
          trace := w.trace ++ [Call.setLow r]
          line := if r.isNone then false else w.line })

/-- Mock `OutputPin::set_high`: consume the next scripted pin outcome, record
the call, and drive the line high on success. -/
def World.setHigh {S P : Type} (w : World S P) : Option P × World S P :=
  let r := w.pinScript.headD none
  (r, { w with
          pinScript := w.pinScript.tail
          trace := w.trace ++ [Call.setHigh r]
          line := if r.isNone then true else w.line })

/-- Mock `spi::Write::write`: consume the next scripted bus outcome and
record the call together with the bytes handed to the bus. -/
def World.spiWrite {S P : Type} (w : World S P) (bytes : List Nat) :
    Option S × World S P :=
  let r := w.spiScript.headD none
  (r, { w with
          spiScript := w.spiScript.tail
          trace := w.trace ++ [Call.spiWrite bytes r] })

/-- High byte of a command word: `(cmd >> 8) as u8` in the source
(the `% 256` is the `as u8` cast). -/
def hiByte (cmd : Nat) : Nat :=
  (cmd >>> 8) % 256

/-- Low byte of a command word: `(cmd & 0xff) as u8` in the source
(the `% 256` is the `as u8` cast). -/
def loByte (cmd : Nat) : Nat :=
  (cmd &&& 0xff) % 256

/-- Device handle, `Ad5328<SPI, EN>` in the source: the owned bus/pin
resource pair (`spi` and `enable`, here the mock `world`) and the reusable
two-byte transmit buffer `cmd_buf: [u8; 2]`. -/
structure Ad5328 (S P : Type) where
  world : World S P
  cmd_buf : Nat × Nat
  deriving DecidableEq, Repr

/-- `Ad5328::write`: drive the enable line low, fill `cmd_buf` with the
big-endian bytes of `cmd`, write the buffer on the bus, drive the line
high; each `?` propagates the first failure.  The updated handle is
returned alongside the result, as `&mut self` does in Rust. -/
def Ad5328.write {S P : Type} (d : Ad5328 S P) (cmd : Nat) :
    Except (Error S P) Unit × Ad5328 S P :=
  match d.world.setLow with
  | (some e, w1) => (Except.error (Error.Pin e), { d with world := w1 })
  | (none, w1) =>
    let d1 : Ad5328 S P := { world := w1, cmd_buf := (hiByte cmd, loByte cmd) }
    match d1.world.spiWrite [d1.cmd_buf.1, d1.cmd_buf.2] with
    | (some e, w2) => (Except.error (Error.Spi e), { d1 with world := w2 })
    | (none, w2) =>
      match w2.setHigh with
      | (some e, w3) => (Except.error (Error.Pin e), { d1 with world := w3 })
      | (none, w3) => (Except.ok (), { d1 with world := w3 })

/-- The body of `Ad5328::configure`'s loop: `for cmd in cmds { self.write(cmd)?; }`
followed by `Ok(())`. -/
def Ad5328.writeAll {S P : Type} (d : Ad5328 S P) :
    List Nat → Except (Error S P) Unit × Ad5328 S P
  | [] => (Except.ok (), d)
  | cmd :: rest =>
    match d.write cmd with
    | (Except.error e, d1) => (Except.error e, d1)
    | (Except.ok _, d1) => d1.writeAll rest

/-- `Ad5328::configure`: (re-)configure the already initialized Ad5328 by
sending the configuration's two command words in order. -/
def Ad5328.configure {S P : Type} (d : Ad5328 S P) (config : Ad5328Config) :
    Except (Error S P) Unit × Ad5328 S P :=
  d.writeAll config.as_commands

/-- `Ad5328::init`: initialize a new Ad5328 instance (with `cmd_buf: [0; 2]`)
while configuring it for the first time; `configure(config)?` drops the
handle and propagates the error on failure. -/
def Ad5328.init {S P : Type} (world : World S P) (config : Ad5328Config) :
    Except (Error S P) (Ad5328 S P) :=
  let ad5328 : Ad5328 S P := { world := world, cmd_buf := (0, 0) }
  match ad5328.configure config with
  | (Except.error e, _) => Except.error e
  | (Except.ok _, d) => Except.ok d

/-- `Ad5328::reset`: reset all DAC data; a full reset also resets all
control data. -/
def Ad5328.reset {S P : Type} (d : Ad5328 S P) (full_reset : Bool) :
    Except (Error S P) Unit × Ad5328 S P :=
  let cmd : Nat := if full_reset then 0xf000 else 0xe000
  match d.write cmd with
  | (Except.error e, d1) => (Except.error e, d1)
  | (Except.ok _, d1) => (Except.ok (), d1)

/-- The accumulation loop of `Ad5328::power_down`:
`for (n, &pd) in channels.iter().enumerate() { cmd |= (if pd { 1 } else { 0 }) << n; }`
starting from the given `cmd` and index `n`. -/
def powerDownWord : Nat → Nat → List Bool → Nat
  | cmd, _, [] => cmd
  | cmd, n, pd :: rest => powerDownWord (cmd ||| (if pd then 1 else 0) <<< n) (n + 1) rest

/-- `Ad5328::power_down`: power down the channels that are set to true in
their respective position (channel A -> 0, ..., channel H -> 7). -/
def Ad5328.power_down {S P : Type} (d : Ad5328 S P) (channels : List Bool) :
    Except (Error S P) Unit × Ad5328 S P :=
  let cmd := powerDownWord 0xc000 0 channels
  match d.write cmd with
  | (Except.error e, d1) => (Except.error e, d1)
  | (Except.ok _, d1) => (Except.ok (), d1)

/-- `Ad5328::set_channel`: set the value for a DAC channel; values above
4095 are rejected with `Error::Oob` before any bus interaction. -/
def Ad5328.set_channel {S P : Type} (d : Ad5328 S P) (channel : Channel)
    (value : Nat) : Except (Error S P) Unit × Ad5328 S P :=
  if value > 4095 then
    (Except.error Error.Oob, d)
  else
    let cmd := channel.as_u16 ||| value
    match d.write cmd with
    | (Except.error e, d1) => (Except.error e, d1)
    | (Except.ok _, d1) => (Except.ok (), d1)

/-- The framed transaction a single successful `write cmd` records on the
mock: pin low, one two-byte big-endian bus write, pin high. -/
def frame {S P : Type} (cmd : Nat) : List (Call S P) :=
  [Call.setLow none, Call.spiWrite [hiByte cmd, loByte cmd] none, Call.setHigh none]

/-! Helper lemmas shared by the claim theorems. -/

/-- The low byte of a word is the word modulo 256. -/
lemma loByte_eq (cmd : Nat) : loByte cmd = cmd % 256 := by
  have h := Nat.and_pow_two_sub_one_eq_mod cmd 8
  norm_num at h
  simp [loByte, h]

/-- For a 16-bit word, the high byte is the word divided by 256. -/
lemma hiByte_eq_of_lt {cmd : Nat} (h : cmd < 65536) : hiByte cmd = cmd / 256 := by
  rw [hiByte, Nat.shiftRight_eq_div_pow]
  norm_num
  omega

/-- On an all-success world (empty scripts), `write` succeeds, records
exactly one frame, leaves the line high and the big-endian bytes of the
word in `cmd_buf`. -/
lemma write_okWorld {S P : Type} (t0 : List (Call S P)) (l : Bool)
    (buf : Nat × Nat) (cmd : Nat) :
    Ad5328.write ⟨⟨[], [], t0, l⟩, buf⟩ cmd
      = (Except.ok (), ⟨⟨[], [], t0 ++ frame cmd, true⟩, (hiByte cmd, loByte cmd)⟩) := by
  simp [Ad5328.write, World.setLow, World.setHigh, World.spiWrite, frame]


/-! Claim theorems. -/

/-- C1: for every Channel `c` (fixed 3-bit addresses 0 through 7) and every
value `v ≤ 4095`, the channel-write command word built by `set_channel`,
`c.as_u16 ||| v`, has bit 15 equal to 0, carries `c`'s address in bits
12-14 and `v` in bits 0-11, and is the word `set_channel` sends. -/
theorem channel_command_bits {S P : Type} (c : Channel) (v : Nat) (hv : v ≤ 4095) :
    (Channel.as_u16 c ||| v).testBit 15 = false
      ∧ (Channel.as_u16 c ||| v) / 4096 % 8 = c.toU8
      ∧ (Channel.as_u16 c ||| v) % 4096 = v
      ∧ ∀ (t0 : List (Call S P)) (l : Bool) (buf : Nat × Nat),
          Ad5328.set_channel ⟨⟨[], [], t0, l⟩, buf⟩ c v
            = (Except.ok (), ⟨⟨[], [], t0 ++ frame (Channel.as_u16 c ||| v), true⟩,
                (hiByte (Channel.as_u16 c ||| v), loByte (Channel.as_u16 c ||| v))⟩) := by
  have hk : c.toU8 < 8 := by cases c <;> simp [Channel.toU8]
  have h1 : Channel.as_u16 c ||| v = 2 ^ 12 * c.toU8 + v := by
    rw [Channel.as_u16, Nat.shiftLeft_eq, Nat.mul_comm]
    exact (Nat.mul_add_lt_is_or (by omega) _).symm
  have h1' : Channel.as_u16 c ||| v = 4096 * c.toU8 + v := by rw [h1]; norm_num
  refine ⟨?_, ?_, ?_, ?_⟩
  · apply Nat.testBit_lt_two_pow
    have h15 : (2 : Nat) ^ 15 = 32768 := by norm_num
    rw [h15, h1']
    omega
  · rw [h1']; omega
  · rw [h1']; omega
  · intro t0 l buf
    have hng : ¬ v > 4095 := by omega
    simp only [Ad5328.set_channel, if_neg hng]
    rw [write_okWorld]

/-- Witness for C1 at channel C and value 100. -/
theorem channel_command_bits_witness :
    (Channel.as_u16 Channel.C ||| 100) / 4096 % 8 = Channel.toU8 Channel.C
      ∧ Ad5328.set_channel (S := Unit) (P := Unit) ⟨⟨[], [], [], true⟩, (0, 0)⟩ Channel.C 100
          = (Except.ok (), ⟨⟨[], [], [] ++ frame (Channel.as_u16 Channel.C ||| 100), true⟩,
              (hiByte (Channel.as_u16 Channel.C ||| 100), loByte (Channel.as_u16 Channel.C ||| 100))⟩) := by
  have h := channel_command_bits (S := Unit) (P := Unit) Channel.C 100 (by decide)
  exact ⟨h.2.1, h.2.2.2 [] true (0, 0)⟩

/-- C2: for every value above 4095, `set_channel` fails with `Error.Oob`
and returns the handle unchanged (in particular the mock's call trace is
unchanged: zero bus writes and zero pin calls); for every value at most
4095 it encodes and sends exactly one channel-write word. -/
theorem set_channel_oob_or_send {S P : Type} :
    (∀ (d : Ad5328 S P) (c : Channel) (v : Nat), 4095 < v →
        d.set_channel c v = (Except.error Error.Oob, d))
      ∧ ∀ (c : Channel) (v : Nat), v ≤ 4095 →
          ∀ (t0 : List (Call S P)) (l : Bool) (buf : Nat × Nat),
            Ad5328.set_channel ⟨⟨[], [], t0, l⟩, buf⟩ c v
              = (Except.ok (), ⟨⟨[], [], t0 ++ frame (Channel.as_u16 c ||| v), true⟩,
                  (hiByte (Channel.as_u16 c ||| v), loByte (Channel.as_u16 c ||| v))⟩) := by
  constructor
  · intro d c v hv
    simp only [Ad5328.set_channel, if_pos (show v > 4095 from hv)]
  · intro c v hv t0 l buf
    have hng : ¬ v > 4095 := by omega
    simp only [Ad5328.set_channel, if_neg hng]
    rw [write_okWorld]

/-- Witness for C2: value 4096 is rejected with the handle unchanged, and
value 4095 on channel A is framed and sent. -/
theorem set_channel_oob_or_send_witness :
    Ad5328.set_channel (S := Unit) (P := Unit) ⟨⟨[], [], [], true⟩, (0, 0)⟩ Channel.A 4096
        = (Except.error Error.Oob, ⟨⟨[], [], [], true⟩, (0, 0)⟩)
      ∧ Ad5328.set_channel (S := Unit) (P := Unit) ⟨⟨[], [], [], true⟩, (0, 0)⟩ Channel.A 4095
          = (Except.ok (), ⟨⟨[], [], [] ++ frame (Channel.as_u16 Channel.A ||| 4095), true⟩,
              (hiByte (Channel.as_u16 Channel.A ||| 4095), loByte (Channel.as_u16 Channel.A ||| 4095))⟩) := by
  have h := set_channel_oob_or_send (S := Unit) (P := Unit)
  exact ⟨h.1 _ Channel.A 4096 (by decide), h.2 Channel.A 4095 (by decide) [] true (0, 0)⟩

/-- C3: for every Configuration, the encoder produces exactly two words;
word 1 has bit 15 = 1 and bit 14 = 0, bit 4 the group-A-D gain, bit 5 the
group-E-H gain, bit 2 the group-A-D buffering, bit 3 the group-E-H
buffering, bit 0 the group-A-D reference source, bit 1 the group-E-H
reference source, and no bit outside 0-5 and 15 set; word 2 is the fixed
pattern `0xA000` or-ed with the 2-bit latch-mode code, where the codes of
the three modes are 0 (permanently low), 1 (permanently high) and 2
(single pulse). -/
theorem as_commands_bits (c : Ad5328Config) :
    c.as_commands.length = 2
      ∧ (c.as_commands.getD 0 0).testBit 15 = true
      ∧ (c.as_commands.getD 0 0).testBit 14 = false
      ∧ (c.as_commands.getD 0 0).testBit 4 = decide (c.gain.1 = GAIN.Gain02Vref)
      ∧ (c.as_commands.getD 0 0).testBit 5 = decide (c.gain.2 = GAIN.Gain02Vref)
      ∧ (c.as_commands.getD 0 0).testBit 2 = decide (c.buf.1 = BUF.Buffered)
      ∧ (c.as_commands.getD 0 0).testBit 3 = decide (c.buf.2 = BUF.Buffered)
      ∧ (c.as_commands.getD 0 0).testBit 0 = decide (c.vdd.1 = VDD.VddAsRef)
      ∧ (c.as_commands.getD 0 0).testBit 1 = decide (c.vdd.2 = VDD.VddAsRef)
      ∧ (c.as_commands.getD 0 0) &&& 0x803F = c.as_commands.getD 0 0
      ∧ c.as_commands.getD 1 0 = 0xA000 ||| c.ldac.toU16
      ∧ LDAC.toU16 LDAC.LdacLow = 0
      ∧ LDAC.toU16 LDAC.LdacHigh = 1
      ∧ LDAC.toU16 LDAC.LdacSingleUpdate = 2 := by
  obtain ⟨⟨g1, g2⟩, ⟨b1, b2⟩, ⟨v1, v2⟩, l⟩ := c
  cases g1 <;> cases g2 <;> cases b1 <;> cases b2 <;> cases v1 <;> cases v2 <;> cases l <;>
    decide

/-- C8: encoding the default Configuration (gain 0-Vref for both groups,
buffered references, external reference source, LDAC permanently high)
yields exactly the two words stated in the spec, i.e. `[0x800C, 0xA001]`. -/
theorem default_config_words :
    Ad5328Config.default.as_commands
        = [0x8000 ||| 0 ||| 0 <<< 1 ||| 0x4 ||| 0x4 <<< 1 ||| 0 ||| 0 <<< 1, 0xA001]
      ∧ Ad5328Config.default.as_commands = [0x800C, 0xA001] := by
  decide

/-- C4: on an all-success mock, a `write` of any 16-bit command word
performs exactly pin-low, then one two-byte big-endian bus write (high
byte `cmd / 256` then low byte `cmd % 256`), then pin-high, in that order;
and every operation kind (channel write, reset, power-down, and each
configuration word) goes through this single framed `write`. -/
theorem framed_write_protocol {S P : Type} :
    (∀ (t0 : List (Call S P)) (l : Bool) (buf : Nat × Nat) (cmd : Nat), cmd < 65536 →
        Ad5328.write ⟨⟨[], [], t0, l⟩, buf⟩ cmd
          = (Except.ok (),
              ⟨⟨[], [],
                  t0 ++ [Call.setLow none, Call.spiWrite [cmd / 256, cmd % 256] none,
                    Call.setHigh none],
                  true⟩,
                (cmd / 256, cmd % 256)⟩))
      ∧ (∀ (d : Ad5328 S P) (c : Channel) (v : Nat), v ≤ 4095 →
          d.set_channel c v = d.write (Channel.as_u16 c ||| v))
      ∧ (∀ (d : Ad5328 S P) (b : Bool),
          d.reset b = d.write (if b then 0xf000 else 0xe000))
      ∧ (∀ (d : Ad5328 S P) (mask : List Bool),
          d.power_down mask = d.write (powerDownWord 0xc000 0 mask))
      ∧ ∀ (t0 : List (Call S P)) (l : Bool) (buf : Nat × Nat)
          (config : Ad5328Config) (w1 w2 : Nat), config.as_commands = [w1, w2] →
          Ad5328.configure ⟨⟨[], [], t0, l⟩, buf⟩ config
            = (Except.ok (),
                ⟨⟨[], [], t0 ++ frame w1 ++ frame w2, true⟩, (hiByte w2, loByte w2)⟩) := by
  refine ⟨?_, ?_, ?_, ?_, ?_⟩
  · intro t0 l buf cmd hcmd
    rw [write_okWorld]
    simp [frame, hiByte_eq_of_lt hcmd, loByte_eq]
  · intro d c v hv
    simp only [Ad5328.set_channel, if_neg (show ¬ v > 4095 by omega)]
    rcases hw : d.write (Channel.as_u16 c ||| v) with ⟨r, d1⟩
    cases r <;> rfl
  · intro d b
    simp only [Ad5328.reset]
    rcases hw : d.write (if b then (0xf000 : Nat) else 0xe000) with ⟨r, d1⟩
    cases r <;> rfl
  · intro d mask
    simp only [Ad5328.power_down]
    rcases hw : d.write (powerDownWord 0xc000 0 mask) with ⟨r, d1⟩
    cases r <;> rfl
  · intro t0 l buf config w1 w2 h
    simp only [Ad5328.configure, h]
    simp [Ad5328.writeAll, write_okWorld, List.append_assoc]

/-- Witness for C4 at concrete inputs for each conjunct. -/
theorem framed_write_protocol_witness :
    Ad5328.write (S := Unit) (P := Unit) ⟨⟨[], [], [], true⟩, (0, 0)⟩ 0xABCD
        = (Except.ok (),
            ⟨⟨[], [],
                [] ++ [Call.setLow none, Call.spiWrite [0xABCD / 256, 0xABCD % 256] none,
                  Call.setHigh none],
                true⟩,
              (0xABCD / 256, 0xABCD % 256)⟩)
      ∧ Ad5328.set_channel (S := Unit) (P := Unit) ⟨⟨[], [], [], true⟩, (0, 0)⟩ Channel.B 7
          = Ad5328.write ⟨⟨[], [], [], true⟩, (0, 0)⟩ (Channel.as_u16 Channel.B ||| 7)
      ∧ Ad5328.reset (S := Unit) (P := Unit) ⟨⟨[], [], [], true⟩, (0, 0)⟩ true
          = Ad5328.write ⟨⟨[], [], [], true⟩, (0, 0)⟩ (if true then 0xf000 else 0xe000)
      ∧ Ad5328.power_down (S := Unit) (P := Unit) ⟨⟨[], [], [], true⟩, (0, 0)⟩ []
          = Ad5328.write ⟨⟨[], [], [], true⟩, (0, 0)⟩ (powerDownWord 0xc000 0 [])
      ∧ Ad5328.configure (S := Unit) (P := Unit) ⟨⟨[], [], [], true⟩, (0, 0)⟩
            Ad5328Config.default
          = (Except.ok (),
              ⟨⟨[], [], [] ++ frame 0x800C ++ frame 0xA001, true⟩,
                (hiByte 0xA001, loByte 0xA001)⟩) := by
  have h := framed_write_protocol (S := Unit) (P := Unit)
  exact ⟨h.1 [] true (0, 0) 0xABCD (by decide),
    h.2.1 _ Channel.B 7 (by decide),
    h.2.2.1 _ true,
    h.2.2.2.1 _ [],
    h.2.2.2.2 [] true (0, 0) Ad5328Config.default 0x800C 0xA001 (by decide)⟩

/-- C5: the first failing step of a framed transaction is returned
immediately and no later step is attempted: a failed pin-low aborts before
any bus write; a failed bus write leaves the control line asserted low and
no pin-high is attempted; a failed pin-high after a bus write is returned
with the line still low; and a bus failure on the first word of
`configure`'s two-word sequence means the second word is never sent. -/
theorem fail_fast_first_error {S P : Type} :
    (∀ (e : P) (pr : List (Option P)) (spiS : List (Option S)) (t0 : List (Call S P))
        (l : Bool) (buf : Nat × Nat) (cmd : Nat),
        Ad5328.write ⟨⟨some e :: pr, spiS, t0, l⟩, buf⟩ cmd
          = (Except.error (Error.Pin e), ⟨⟨pr, spiS, t0 ++ [Call.setLow (some e)], l⟩, buf⟩))
      ∧ (∀ (e : S) (sr : List (Option S)) (t0 : List (Call S P)) (l : Bool)
          (buf : Nat × Nat) (cmd : Nat),
          Ad5328.write ⟨⟨[], some e :: sr, t0, l⟩, buf⟩ cmd
            = (Except.error (Error.Spi e),
                ⟨⟨[], sr,
                    t0 ++ [Call.setLow none, Call.spiWrite [hiByte cmd, loByte cmd] (some e)],
                    false⟩,
                  (hiByte cmd, loByte cmd)⟩))
      ∧ (∀ (e : P) (pr : List (Option P)) (t0 : List (Call S P)) (l : Bool)
          (buf : Nat × Nat) (cmd : Nat),
          Ad5328.write ⟨⟨none :: some e :: pr, [], t0, l⟩, buf⟩ cmd
            = (Except.error (Error.Pin e),
                ⟨⟨pr, [],
                    t0 ++ [Call.setLow none, Call.spiWrite [hiByte cmd, loByte cmd] none,
                      Call.setHigh (some e)],
                    false⟩,
                  (hiByte cmd, loByte cmd)⟩))
      ∧ ∀ (e : S) (sr : List (Option S)) (t0 : List (Call S P)) (l : Bool)
          (buf : Nat × Nat) (config : Ad5328Config) (w1 w2 : Nat),
          config.as_commands = [w1, w2] →
          Ad5328.configure ⟨⟨[], some e :: sr, t0, l⟩, buf⟩ config
            = (Except.error (Error.Spi e),
                ⟨⟨[], sr,
                    t0 ++ [Call.setLow none, Call.spiWrite [hiByte w1, loByte w1] (some e)],
                    false⟩,
                  (hiByte w1, loByte w1)⟩) := by
  refine ⟨?_, ?_, ?_, ?_⟩
  · intro e pr spiS t0 l buf cmd
    simp [Ad5328.write, World.setLow]
  · intro e sr t0 l buf cmd
    simp [Ad5328.write, World.setLow, World.spiWrite, List.append_assoc]
  · intro e pr t0 l buf cmd
    simp [Ad5328.write, World.setLow, World.spiWrite, World.setHigh, List.append_assoc]
  · intro e sr t0 l buf config w1 w2 h
    simp only [Ad5328.configure, h]
    simp [Ad5328.writeAll, Ad5328.write, World.setLow, World.spiWrite, List.append_assoc]

/-- Witness for C5's configure conjunct (and the others) at concrete inputs. -/
theorem fail_fast_first_error_witness :
    Ad5328.write (S := Unit) (P := Unit) ⟨⟨[some ()], [], [], true⟩, (0, 0)⟩ 0x1234
        = (Except.error (Error.Pin ()), ⟨⟨[], [], [] ++ [Call.setLow (some ())], true⟩, (0, 0)⟩)
      ∧ Ad5328.configure (S := Unit) (P := Unit) ⟨⟨[], [some ()], [], true⟩, (0, 0)⟩
            Ad5328Config.default
          = (Except.error (Error.Spi ()),
              ⟨⟨[], [],
                  [] ++ [Call.setLow none,
                    Call.spiWrite [hiByte 0x800C, loByte 0x800C] (some ())],
                  false⟩,
                (hiByte 0x800C, loByte 0x800C)⟩) := by
  have h := fail_fast_first_error (S := Unit) (P := Unit)
  exact ⟨h.1 () [] [] [] true (0, 0) 0x1234,
    h.2.2.2 () [] [] true (0, 0) Ad5328Config.default 0x800C 0xA001 (by decide)⟩

/-- On an all-success world, `configure` sends the configuration's two
words as two consecutive frames. -/
lemma configure_okWorld {S P : Type} (t0 : List (Call S P)) (l : Bool)
    (buf : Nat × Nat) (config : Ad5328Config) (w1 w2 : Nat)
    (h : config.as_commands = [w1, w2]) :
    Ad5328.configure ⟨⟨[], [], t0, l⟩, buf⟩ config
      = (Except.ok (),
          ⟨⟨[], [], t0 ++ frame w1 ++ frame w2, true⟩, (hiByte w2, loByte w2)⟩) := by
  simp only [Ad5328.configure, h]
  simp [Ad5328.writeAll, write_okWorld, List.append_assoc]

/-- C6: for every 8-element power-down mask, `power_down` builds the word
`0xC000` or-ed with one bit per channel at its channel-indexed position
(channel A = bit 0 through channel H = bit 7) and sends it as one frame;
in particular the mask `[true, false, true, false, false, false, false,
false]` yields `0xC005`. -/
theorem power_down_mask_bits {S P : Type} :
    (∀ b0 b1 b2 b3 b4 b5 b6 b7 : Bool,
        powerDownWord 0xc000 0 [b0, b1, b2, b3, b4, b5, b6, b7]
          = 0xc000 ||| (if b0 then 1 else 0) ||| (if b1 then 2 else 0)
              ||| (if b2 then 4 else 0) ||| (if b3 then 8 else 0)
              ||| (if b4 then 16 else 0) ||| (if b5 then 32 else 0)
              ||| (if b6 then 64 else 0) ||| (if b7 then 128 else 0))
      ∧ (∀ (t0 : List (Call S P)) (l : Bool) (buf : Nat × Nat) (mask : List Bool),
          Ad5328.power_down ⟨⟨[], [], t0, l⟩, buf⟩ mask
            = (Except.ok (),
                ⟨⟨[], [], t0 ++ frame (powerDownWord 0xc000 0 mask), true⟩,
                  (hiByte (powerDownWord 0xc000 0 mask),
                    loByte (powerDownWord 0xc000 0 mask))⟩))
      ∧ powerDownWord 0xc000 0 [true, false, true, false, false, false, false, false]
          = 0xC005 := by
  refine ⟨by decide, ?_, by decide⟩
  intro t0 l buf mask
  simp [Ad5328.power_down, write_okWorld]

/-- C7: `reset false` sends exactly the word `0xE000` (data-only reset) and
`reset true` sends exactly the word `0xF000` (full reset); the word is
selected by the boolean flag alone and handed to the single framed
`write`. -/
theorem reset_words {S P : Type} :
    (∀ (d : Ad5328 S P) (b : Bool), d.reset b = d.write (if b then 0xf000 else 0xe000))
      ∧ (∀ (t0 : List (Call S P)) (l : Bool) (buf : Nat × Nat),
          Ad5328.reset ⟨⟨[], [], t0, l⟩, buf⟩ false
            = (Except.ok (),
                ⟨⟨[], [], t0 ++ frame 0xe000, true⟩, (hiByte 0xe000, loByte 0xe000)⟩))
      ∧ ∀ (t0 : List (Call S P)) (l : Bool) (buf : Nat × Nat),
          Ad5328.reset ⟨⟨[], [], t0, l⟩, buf⟩ true
            = (Except.ok (),
                ⟨⟨[], [], t0 ++ frame 0xf000, true⟩, (hiByte 0xf000, loByte 0xf000)⟩) := by
  refine ⟨?_, ?_, ?_⟩
  · intro d b
    simp only [Ad5328.reset]
    rcases hw : d.write (if b then (0xf000 : Nat) else 0xe000) with ⟨r, d1⟩
    cases r <;> rfl
  · intro t0 l buf
    simp [Ad5328.reset, write_okWorld]
  · intro t0 l buf
    simp [Ad5328.reset, write_okWorld]

/-- C9: `init` constructs the handle (with a zeroed `cmd_buf`) and performs
the same work as `configure`: if that configuration write fails, `init`
returns the same failure and no handle; if it succeeds, `init` returns
exactly the configured handle, which on an all-success world has sent the
configuration's two words. -/
theorem init_like_configure {S P : Type} :
    (∀ (w : World S P) (config : Ad5328Config) (e : Error S P) (d1 : Ad5328 S P),
        Ad5328.configure ⟨w, (0, 0)⟩ config = (Except.error e, d1) →
        Ad5328.init w config = Except.error e)
      ∧ (∀ (w : World S P) (config : Ad5328Config) (d1 : Ad5328 S P),
          Ad5328.configure ⟨w, (0, 0)⟩ config = (Except.ok (), d1) →
          Ad5328.init w config = Except.ok d1)
      ∧ ∀ (t0 : List (Call S P)) (l : Bool) (config : Ad5328Config) (w1 w2 : Nat),
          config.as_commands = [w1, w2] →
          Ad5328.init (S := S) (P := P) ⟨[], [], t0, l⟩ config
            = Except.ok
                ⟨⟨[], [], t0 ++ frame w1 ++ frame w2, true⟩, (hiByte w2, loByte w2)⟩ := by
  refine ⟨?_, ?_, ?_⟩
  · intro w config e d1 h
    simp only [Ad5328.init, h]
  · intro w config d1 h
    simp only [Ad5328.init, h]
  · intro t0 l config w1 w2 h
    simp only [Ad5328.init]
    rw [configure_okWorld _ _ _ _ _ _ h]

/-- Witness for C9: a first-word bus failure makes `init` fail with that
bus error (no handle), and on an all-success world `init` with the default
configuration returns the configured handle. -/
theorem init_like_configure_witness :
    Ad5328.init (S := Unit) (P := Unit) ⟨[], [some ()], [], true⟩ Ad5328Config.default
        = Except.error (Error.Spi ())
      ∧ Ad5328.init (S := Unit) (P := Unit) ⟨[], [], [], true⟩ Ad5328Config.default
          = Except.ok
              ⟨⟨[], [], [] ++ frame 0x800C ++ frame 0xA001, true⟩,
                (hiByte 0xA001, loByte 0xA001)⟩ := by
  have h := init_like_configure (S := Unit) (P := Unit)
  exact ⟨h.1 ⟨[], [some ()], [], true⟩ Ad5328Config.default (Error.Spi ())
      ⟨⟨[], [], [Call.setLow none, Call.spiWrite [0x80, 0x0C] (some ())], false⟩,
        (0x80, 0x0C)⟩ rfl,
    h.2.2 [] true Ad5328Config.default 0x800C 0xA001 (by decide)⟩

/-- C10: in every framed transaction the scratch buffer `cmd_buf` is
overwritten only after the enable line has been successfully driven low:
if `set_low` fails, `write` returns the pin error with `cmd_buf` exactly
as before the call, the bus script untouched (no bus write), and the only
call performed being the failing `set_low` itself. -/
theorem cmd_buf_untouched_on_pin_failure {S P : Type} :
    ∀ (e : P) (pr : List (Option P)) (spiS : List (Option S)) (t0 : List (Call S P))
      (l : Bool) (buf : Nat × Nat) (cmd : Nat),
      Ad5328.write ⟨⟨some e :: pr, spiS, t0, l⟩, buf⟩ cmd
        = (Except.error (Error.Pin e),
            ⟨⟨pr, spiS, t0 ++ [Call.setLow (some e)], l⟩, buf⟩) := by
  intro e pr spiS t0 l buf cmd
  simp [Ad5328.write, World.setLow]
